import Mathlib

/-!
Shallow embedding of the AgentTest evaluation-and-scoring pipeline and the
git-aware result store, translated from the repository sources
(`agent_test/core/runner.py`, `agent_test/core/git_logger.py`,
`agent-test/evaluators/base.py`).  Python machine floats are modelled by `ℚ`,
Python `None`/missing dictionary keys by `Option`, and raisable code by
`Except`.
-/

namespace AgentTest

/-- A Python value as it appears in test outputs (the fragment the evaluators
touch: strings, integers and booleans).  `str()` is `pyStr`, truthiness is
`pyTruthy`. -/
inductive PyVal : Type where
  | str (s : String)
  | int (n : Int)
  | bool (b : Bool)
deriving DecidableEq, Repr

/-- Python `str()` on the modelled values. -/
def pyStr : PyVal → String
  | .str s => s
  | .int n => toString n
  | .bool b => if b then "True" else "False"

/-- Python truthiness on the modelled values. -/
def pyTruthy : PyVal → Bool
  | .str s => !s.isEmpty
  | .int n => n != 0
  | .bool b => b

/-- Truthiness of an optional value (`dict.get` returning `None` is falsy). -/
def pyTruthyO : Option PyVal → Bool
  | none => false
  | some v => pyTruthy v

/-- Truthiness of an optional string (`result.get("error")` in the runner:
absent or `None` or the empty string are falsy). -/
def strTruthy : Option String → Bool
  | none => false
  | some s => !s.isEmpty

mutual

/-- Model of `EvaluationResult` from `agent-test/evaluators/base.py`: `passed`,
optional `score`, optional `threshold`, a `details` payload and an optional
`error` message. -/
inductive EvaluationResult : Type where
  | mk (passed : Bool) (score : Option ℚ) (threshold : Option ℚ)
       (details : Details) (error : Option String) : EvaluationResult

/-- The `details` dictionaries the evaluators in `base.py` construct. -/
inductive Details : Type where
  | empty : Details
  | openEnded : Details
  | similarity (actual expected : PyVal) (sim : ℚ) (method : String) : Details
  | multiCase (totalCases passedCases : Nat)
      (individualResults : List EvaluationResult) : Details
  | regex (actual : PyVal) (pat : PyVal) (matched : Option String) : Details

end

/-- Projection: `passed` field. -/
def EvaluationResult.passed : EvaluationResult → Bool
  | .mk p _ _ _ _ => p

/-- Projection: `score` field. -/
def EvaluationResult.score : EvaluationResult → Option ℚ
  | .mk _ s _ _ _ => s

/-- Projection: `threshold` field. -/
def EvaluationResult.threshold : EvaluationResult → Option ℚ
  | .mk _ _ t _ _ => t

/-- Projection: `details` field. -/
def EvaluationResult.details : EvaluationResult → Details
  | .mk _ _ _ d _ => d

/-- Projection: `error` field. -/
def EvaluationResult.error : EvaluationResult → Option String
  | .mk _ _ _ _ e => e

/-- One case dictionary as read by `_evaluate_single_case` /
`RegexEvaluator.evaluate`: the keys `actual`, `expected`, `pattern`
(absent key or `None` value is `none`). -/
structure CaseRec : Type where
  actual : Option PyVal := none
  expected : Option PyVal := none
  pat : Option PyVal := none
deriving DecidableEq, Repr

/-- The normalized output dictionary produced by `_extract_test_data`: the
keys the evaluators read, including an optional `test_cases` list. -/
structure OutRec : Type where
  testCases : Option (List CaseRec) := none
  actual : Option PyVal := none
  expected : Option PyVal := none
  pat : Option PyVal := none

/-- A raw test output: a dictionary, a list of case dictionaries, or a
scalar value. -/
inductive TestOutput : Type where
  | dict (d : OutRec)
  | list (cases : List CaseRec)
  | scalar (v : PyVal)

/-- Model of `BaseEvaluator._extract_test_data`: a dict passes through, a list is
wrapped under the `test_cases` key, a scalar becomes `{"actual": value}`. -/
def extractTestData : TestOutput → OutRec
  | .dict d => d
  | .list cases => { testCases := some cases }
  | .scalar v => { actual := some v }

/-- Per-evaluator configuration as consumed by `_get_config_value`:
`threshold`, `method`, and (for the regex evaluator) `pattern`. -/
structure EvalConfig : Type where
  threshold : Option ℚ := none
  method : Option String := none
  pat : Option PyVal := none

/-- Python `.lower().split()`: lower-case, split on whitespace, drop empty
tokens. -/
def pyWords (s : String) : List String :=
  (s.toLower.split Char.isWhitespace).filter (fun w => !w.isEmpty)

/-- Model of `_word_overlap_similarity`: both word sets empty gives 1.0, exactly one
empty gives 0.0, otherwise `|w1 ∩ w2| / max |w1| |w2|` over deduplicated
word lists. -/
def wordOverlapSimilarity (text1 text2 : String) : ℚ :=
  let words1 := (pyWords text1).dedup
  let words2 := (pyWords text2).dedup
  if words1.isEmpty && words2.isEmpty then 1
  else if words1.isEmpty || words2.isEmpty then 0
  else ((words1.filter (fun w => w ∈ words2)).length : ℚ) /
        (max words1.length words2.length : ℚ)

/-- Model of `_cosine_similarity`: the TF-IDF path depends on the external `sklearn`
library; the source's documented `ImportError` fallback is the word-overlap
similarity, which is what this model computes. -/
def cosineSimilarity (text1 text2 : String) : ℚ :=
  wordOverlapSimilarity text1 text2

/-- Model of `_jaccard_similarity`: intersection over union of the lower-cased
whitespace-tokenized word sets; empty union gives 0.0. -/
def jaccardSimilarity (text1 text2 : String) : ℚ :=
  let set1 := (pyWords text1).dedup
  let set2 := (pyWords text2).dedup
  let inter := (set1.filter (fun w => w ∈ set2)).length
  let union := ((set1 ++ set2).dedup).length
  if union > 0 then (inter : ℚ) / (union : ℚ) else 0

/-- One row update of the classic Levenshtein dynamic program
(the inner `for j, c2 in enumerate(s2)` loop of `levenshtein_distance`):
`prev` is the previous row tail, `headv` the value just placed to the left. -/
def levRow (c1 : Char) : List Char → List Nat → Nat → List Nat
  | c2 :: s2', p0 :: p1 :: ps, headv =>
      let insertions := p1 + 1
      let deletions := headv + 1
      let substitutions := p0 + (if c1 ≠ c2 then 1 else 0)
      let v := min (min insertions deletions) substitutions
      v :: levRow c1 s2' (p1 :: ps) v
  | _, _, _ => []

/-- The outer `for i, c1 in enumerate(s1)` loop of `levenshtein_distance`. -/
def levLoop (s2 : List Char) : List Char → List Nat → Nat → List Nat
  | [], prev, _ => prev
  | c1 :: s1', prev, i =>
      let row := (i + 1) :: levRow c1 s2 prev (i + 1)
      levLoop s2 s1' row (i + 1)

/-- Model of `levenshtein_distance` for `len s1 ≥ len s2` (the function swaps its
arguments otherwise). -/
def levDistCore (s1 s2 : List Char) : Nat :=
  if s2.length = 0 then s1.length
  else ((levLoop s2 s1 (List.range (s2.length + 1)) 0).getLast?).getD 0

/-- Model of `levenshtein_distance`: swap so the first argument is the longer one,
then run the row dynamic program. -/
def levenshteinDistance (s1 s2 : List Char) : Nat :=
  if s1.length < s2.length then levDistCore s2 s1 else levDistCore s1 s2

/-- Model of `_levenshtein_similarity`: `1 - distance / max(len)`, with the
empty/empty pair scoring 1.0. -/
def levenshteinSimilarity (text1 text2 : String) : ℚ :=
  let maxLen := max text1.length text2.length
  if maxLen = 0 then 1
  else 1 - (levenshteinDistance text1.toList text2.toList : ℚ) / (maxLen : ℚ)

/-- Model of `_calculate_similarity`: dispatch on the configured `method`
(default `cosine`). -/
def calculateSimilarity (cfg : EvalConfig) (actual expected : String) : ℚ :=
  let method := cfg.method.getD "cosine"
  if method = "exact" then (if actual = expected then 1 else 0)
  else if method = "levenshtein" then levenshteinSimilarity actual expected
  else if method = "jaccard" then jaccardSimilarity actual expected
  else cosineSimilarity actual expected

/-- Model of `StringSimilarityEvaluator._evaluate_single_case`: missing `actual` is an
error result; missing `expected` is an open-ended pass with score 1.0;
otherwise similarity against the configured threshold (default 0.8). -/
def evaluateSingleCase (cfg : EvalConfig) (data : CaseRec) : EvaluationResult :=
  match data.actual with
  | none =>
      .mk false none none .empty (some "No 'actual' value found in test output")
  | some actual =>
      match data.expected with
      | none => .mk true (some 1) none .openEnded none
      | some expected =>
          let similarity := calculateSimilarity cfg (pyStr actual) (pyStr expected)
          let threshold := cfg.threshold.getD (4/5)
          .mk (decide (threshold ≤ similarity)) (some similarity) (some threshold)
            (.similarity actual expected similarity (cfg.method.getD "cosine")) none

/-- Model of `StringSimilarityEvaluator._evaluate_multiple_cases`: evaluate each case,
sum the scores that are present, count the passes; overall score is
`total_score / len(test_cases)` (0.0 on an empty list), passed iff every
case passed, details retain the individual results. -/
def evaluateMultipleCases (cfg : EvalConfig) (testCases : List CaseRec) :
    EvaluationResult :=
  let results := testCases.map (evaluateSingleCase cfg)
  let totalScore := (results.map (fun r => r.score.getD 0)).sum
  let passedCount := results.countP (fun r => r.passed)
  let overallScore :=
    if testCases.isEmpty then 0 else totalScore / (testCases.length : ℚ)
  let threshold := cfg.threshold.getD (4/5)
  .mk (decide (passedCount = testCases.length)) (some overallScore)
    (some threshold) (.multiCase testCases.length passedCount results) none

/-- Model of `StringSimilarityEvaluator.evaluate`: normalize the output, dispatch to
multi-case mode when a `test_cases` key is present, else single-case mode. -/
def stringSimilarityEvaluate (cfg : EvalConfig) (out : TestOutput) :
    EvaluationResult :=
  let data := extractTestData out
  match data.testCases with
  | some cases => evaluateMultipleCases cfg cases
  | none =>
      evaluateSingleCase cfg
        { actual := data.actual, expected := data.expected, pat := data.pat }

/-! ### A model of `re.search` for the regex fragment the evaluator uses

`RegexEvaluator.evaluate` delegates matching to Python's `re` library.  The
patterns exercised by this code base use literal characters, the `\d`
character class, `.` and the greedy `+` quantifier; the model below
implements Python's leftmost, greedy, backtracking search for exactly that
fragment, and reports any other construct as a pattern error (which the
evaluator surfaces the same way `re.error` is surfaced). -/

/-- A single-character regex atom: a literal, `\d`, or `.`. -/
inductive RAtom : Type where
  | lit (c : Char)
  | digit
  | any
deriving DecidableEq, Repr

/-- A regex element: one atom, or a greedy `+` repetition of an atom. -/
inductive RElem : Type where
  | once (a : RAtom)
  | rep (a : RAtom)
deriving DecidableEq, Repr

/-- A parsed pattern is the concatenation of its elements. -/
def RPattern : Type := List RElem

/-- Does an atom match one character?  (`\d` is modelled on ASCII digits,
`.` matches anything but a newline, as in Python without `DOTALL`.) -/
def matchAtom : RAtom → Char → Bool
  | .lit c, d => c = d
  | .digit, d => d.isDigit
  | .any, d => d ≠ '\n'

/-- Parser for the modelled fragment: `\d` and `\<char>` escapes, `+`
applied to the previous atom, `.`; other metacharacters are rejected. -/
def parsePattern (s : String) : Except String RPattern :=
  go s.toList []
where
  /-- Accumulating parse loop (the accumulator is reversed at the end). -/
  go : List Char → List RElem → Except String RPattern
  | [], acc => .ok acc.reverse
  | '\\' :: [], _ => .error "bad escape (end of pattern)"
  | '\\' :: c :: rest, acc =>
      if c = 'd' then go rest (.once .digit :: acc)
      else go rest (.once (.lit c) :: acc)
  | '+' :: rest, acc =>
      match acc with
      | .once a :: acc' => go rest (.rep a :: acc')
      | _ => .error "nothing to repeat"
  | '.' :: rest, acc => go rest (.once .any :: acc)
  | c :: rest, acc =>
      if c ∈ ['*', '?', '(', ')', '[', ']', '\x7b', '\x7d', '|', '^', '$']
      then .error "unsupported construct"
      else go rest (.once (.lit c) :: acc)

/-- The candidate remainders of a greedy `+` repetition of atom `a` on `s`,
in backtracking preference order: the repetition must consume at least one
matching character and prefers consuming as many as possible, so the
shortest remainder comes first. -/
def repRems (a : RAtom) : List Char → List (List Char)
  | [] => []
  | c :: s' => if matchAtom a c then repRems a s' ++ [s'] else []

/-- The candidate remainders of one pattern element on `s`, in backtracking
preference order. -/
def elemRems (e : RElem) (s : List Char) : List (List Char) :=
  match e with
  | .once a =>
      match s with
      | [] => []
      | c :: s' => if matchAtom a c then [s'] else []
  | .rep a => repRems a s

/-- Match a pattern against a prefix of `s`: enumerate the remainders of
all element-wise choices in depth-first backtracking preference order
(greedy repetitions first) and keep the preferred complete match, exactly
the match Python's backtracking engine commits to. -/
def matchSeq (es : List RElem) (s : List Char) : Option (List Char) :=
  (es.foldl (fun rems e => rems.flatMap (elemRems e)) [s]).head?

/-- Leftmost search (Python `re.search`): try each start position left to
right; on success return the matched text (the consumed prefix of the
suffix). -/
def searchList (p : RPattern) : List Char → Option String
  | [] =>
      match matchSeq p [] with
      | some _ => some ""
      | none => none
  | c :: s' =>
      match matchSeq p (c :: s') with
      | some rem =>
          some (String.mk ((c :: s').take ((c :: s').length - rem.length)))
      | none => searchList p s'

/-- Model of `re.search(pattern, s)` returning the matched text of the first match. -/
def reSearch (p : RPattern) (s : String) : Option String :=
  searchList p s.toList

/-- Model of `RegexEvaluator.evaluate`: extract `actual` and a pattern (the output's
`pattern` key if truthy, else the configured one); missing `actual` or a
non-truthy pattern is an error result; otherwise `passed` is whether the
pattern is found anywhere in the stringified `actual`, `score` is 1.0/0.0,
and `details` records the first match text. -/
def regexEvaluate (cfg : EvalConfig) (out : TestOutput) : EvaluationResult :=
  let data := extractTestData out
  let patOpt := if pyTruthyO data.pat then data.pat else cfg.pat
  match data.actual with
  | none =>
      .mk false none none .empty (some "No 'actual' value found in test output")
  | some actual =>
      if !pyTruthyO patOpt then
        .mk false none none .empty (some "No regex pattern specified")
      else
        match patOpt with
        | some (.str ps) =>
            match parsePattern ps with
            | .error e =>
                .mk false none none .empty
                  (some ("Regex evaluation failed: " ++ e))
            | .ok p =>
                let m := reSearch p (pyStr actual)
                .mk m.isSome (some (if m.isSome then 1 else 0)) none
                  (.regex actual (.str ps) m) none
        | some v =>
            .mk false none none .empty
              (some ("Regex evaluation failed: first argument must be a string, not " ++ pyStr v))
        | none =>
            .mk false none none .empty (some "No regex pattern specified")

/-! ### Runner / Scorer (`agent_test/core/runner.py`) -/

/-- A criterion entry of the `evaluations` map as the Scorer reads it: a
dictionary whose `error`, `passed`, `score` and `threshold` keys may each be
absent.  Modelled from the spec: the registry glue (`evaluators/registry.py`
is not under `src/`) delivers each `EvaluationResult` into the map in this
dictionary form, with unset (`None`) fields as absent keys, matching the
spec's data model for `evaluations`. -/
structure CritEntry : Type where
  error : Option String := none
  passed : Option Bool := none
  score : Option ℚ := none
  threshold : Option ℚ := none
deriving DecidableEq, Repr

/-- What `_evaluate_test_output` stores per criterion: either an evaluator's
result or a synthetic `{"error": ...}` dictionary. -/
inductive EvalEntry : Type where
  | result (r : EvaluationResult)
  | errorEntry (msg : String)

/-- The dictionary view of an `EvalEntry` that the Scorer reads
(`EvaluationResult` fields under their keys; a synthetic entry has only
`error`). -/
def EvalEntry.toCritEntry : EvalEntry → CritEntry
  | .result r =>
      { error := r.error, passed := some r.passed, score := r.score,
        threshold := r.threshold }
  | .errorEntry msg => { error := some msg }

/-- An evaluator as the runner sees it: a call that either returns an
`EvaluationResult` or raises (modelled as `Except`). -/
def Evaluator : Type := TestOutput → Except String EvaluationResult

/-- A registry (`EvaluatorRegistry.get_evaluator`): resolves a criterion
name to an evaluator, or reports not-found as `none`. -/
def Registry : Type := String → Option Evaluator

/-- Model of `TestRunner._evaluate_test_output`: for each criterion in declared
order, resolve the evaluator and call it; a missing evaluator becomes the
synthetic entry `Evaluator '<name>' not found`, and a raising evaluator is
caught and becomes an `Evaluation failed: <msg>` entry.  Every criterion is
processed and the function itself never raises. -/
def evaluateTestOutput (registry : Registry) (testOutput : TestOutput)
    (criteria : List String) : List (String × EvalEntry) :=
  criteria.map fun criterion =>
    (criterion,
      match registry criterion with
      | some evaluator =>
          match evaluator testOutput with
          | .ok r => .result r
          | .error e => .errorEntry ("Evaluation failed: " ++ e)
      | none => .errorEntry ("Evaluator '" ++ criterion ++ "' not found"))

/-- Model of `TestRunner._determine_pass_status`: walk the evaluation entries; a
truthy `error`, an explicit `passed=False`, or a present `score` below the
entry's recorded threshold (default 0.8) fails the test; otherwise keep
going, and an exhausted list passes. -/
def determinePassStatus : List (String × CritEntry) → Bool
  | [] => true
  | (_, r) :: rest =>
      if strTruthy r.error then false
      else if r.passed = some false then false
      else
        match r.score with
        | some s => if s < r.threshold.getD (4/5) then false
                    else determinePassStatus rest
        | none => determinePassStatus rest

/-- Model of `TestRunner._calculate_overall_score`: collect `(score, weight)` for the
entries that have a `score` key and no truthy `error`, the weight coming
from the criterion's evaluator configuration (default 1.0); return `None`
when nothing qualifies, else the weighted average. -/
def calculateOverallScore (weightCfg : String → Option ℚ)
    (evaluations : List (String × CritEntry)) : Option ℚ :=
  let pairs := evaluations.filterMap fun p =>
    match p.2.score with
    | some s =>
        if strTruthy p.2.error then none else some (s, (weightCfg p.1).getD 1)
    | none => none
  if pairs.isEmpty then none
  else some ((pairs.map fun q => q.1 * q.2).sum / (pairs.map fun q => q.2).sum)

/-- A raised Python exception: its type name and message
(`f"{type(e).__name__}: {str(e)}"` is `PyExc.format`). -/
structure PyExc : Type where
  ty : String
  msg : String

/-- The error message `execute_test` records for a raised exception. -/
def PyExc.format (e : PyExc) : String := e.ty ++ ": " ++ e.msg

/-- A discovered test case as the runner consumes it: the zero-argument
function is modelled by its outcome (a value or a raised exception). -/
structure TestCase : Type where
  name : String
  function : Except PyExc TestOutput
  criteria : List String := []

/-- Model of `TestResult` (modelled from the spec: `decorators.py` is not under
`src/`): test name, pass flag, optional overall score, duration, captured
output, optional execution error, per-criterion evaluations. -/
structure TestResult : Type where
  testName : String
  passed : Bool
  score : Option ℚ := none
  duration : ℚ
  details : Option TestOutput := none
  error : Option String := none
  evaluations : List (String × CritEntry) := []

/-- Model of `TestRunner.execute_test` (non-verbose path; the elapsed wall-clock
duration is supplied as a parameter): invoke the function, evaluate the
criteria, determine pass status and overall score; a raised exception is
caught and recorded as a failed result with the formatted message, the
duration still recorded, and no score and no evaluations. -/
def executeTest (weightCfg : String → Option ℚ) (registry : Registry)
    (duration : ℚ) (tc : TestCase) : TestResult :=
  match tc.function with
  | .ok testOutput =>
      let rawEvals := evaluateTestOutput registry testOutput tc.criteria
      let evaluations := rawEvals.map fun p => (p.1, p.2.toCritEntry)
      { testName := tc.name,
        passed := determinePassStatus evaluations,
        score := calculateOverallScore weightCfg evaluations,
        duration := duration,
        details := some testOutput,
        evaluations := evaluations }
  | .error e =>
      { testName := tc.name,
        passed := false,
        duration := duration,
        error := some e.format }

/-- The execution loop of `TestRunner.run_tests`: execute every discovered
test case in order and collect the results (durations supplied pointwise by
the clock model). -/
def runTests (weightCfg : String → Option ℚ) (registry : Registry)
    (durations : TestCase → ℚ) (testCases : List TestCase) : List TestResult :=
  testCases.map fun tc => executeTest weightCfg registry (durations tc) tc

/-! ### Git-aware result store (`agent_test/core/git_logger.py`) -/

/-- One test's serialized entry inside a revision record's `test_results`
list: the fields `compare_results` reads. -/
structure StoredTest : Type where
  testName : String
  passed : Bool
  score : Option ℚ := none
deriving DecidableEq, Repr

/-- The run-level summary payload (`results.get_summary()`); modelled from
the spec: counts of total/passed/failed, aggregate duration, average score
(`decorators.py` is not under `src/`). -/
structure RunStats : Type where
  total : Nat := 0
  passedCount : Nat := 0
  failed : Nat := 0
  totalDuration : ℚ := 0
  averageScore : Option ℚ := none
deriving DecidableEq, Repr

/-- The git information of a revision record, as read through
`log_entry["git_info"].get(...)` (each key may be absent). -/
structure GitInfo : Type where
  commitHash : Option String := none
  commitHashShort : Option String := none
  branch : Option String := none
deriving DecidableEq, Repr

/-- A persisted revision record (`log_entry`): timestamp, git information,
summary and the serialized test results. -/
structure LogEntry : Type where
  timestamp : String
  gitInfo : GitInfo := {}
  summary : RunStats := {}
  testResults : List StoredTest := []
deriving DecidableEq, Repr

/-- One run summary as stored in the Index (`entry_summary`). -/
structure EntrySummary : Type where
  timestamp : String
  commitHash : Option String := none
  commitHashShort : Option String := none
  branch : Option String := none
  summary : RunStats := {}
  filename : String
deriving DecidableEq, Repr

/-- The `entry_summary` dictionary built from a revision record and its
filename (built identically in `_update_index` and `_rebuild_index`). -/
def summaryOf (e : LogEntry) (filename : String) : EntrySummary :=
  { timestamp := e.timestamp,
    commitHash := e.gitInfo.commitHash,
    commitHashShort := e.gitInfo.commitHashShort,
    branch := e.gitInfo.branch,
    summary := e.summary,
    filename := filename }

/-- The Index: reverse-chronological run list plus lookup buckets keyed by
commit hash and by branch name. -/
structure Index : Type where
  runs : List EntrySummary := []
  byCommit : List (String × List EntrySummary) := []
  byBranch : List (String × List EntrySummary) := []
deriving DecidableEq, Repr

/-- Comparator for `index["runs"].sort(key=timestamp, reverse=True)`:
ISO timestamps compare lexicographically; `a` sorts before `b` when its
timestamp is the later one (stable merge sort matches Python's stable
sort). -/
def timestampDesc (a b : EntrySummary) : Bool :=
  decide (b.timestamp ≤ a.timestamp)

/-- Append a summary to a keyed bucket list (`index["by_commit"][hash]
.append(entry)` with creation of a missing bucket). -/
def bucketAdd (buckets : List (String × List EntrySummary)) (key : String)
    (s : EntrySummary) : List (String × List EntrySummary) :=
  if buckets.any (fun b => b.1 = key) then
    buckets.map (fun b => if b.1 = key then (b.1, b.2 ++ [s]) else b)
  else buckets ++ [(key, [s])]

/-- The result filename `<timestamp>_<short-hash>.json` (the `strftime`
reformatting of the timestamp is kept abstract as the timestamp string). -/
def filenameOf (e : LogEntry) : String :=
  e.timestamp ++ "_" ++ (e.gitInfo.commitHashShort.getD "unknown") ++ ".json"

/-- Model of `GitLogger._update_index` (the write path): append the new summary to
`runs`, re-sort reverse-chronologically, truncate to the most recent 100,
and extend the commit/branch buckets when those keys are truthy. -/
def updateIndex (index : Index) (e : LogEntry) : Index :=
  let s := summaryOf e (filenameOf e)
  let runs := ((index.runs ++ [s]).mergeSort timestampDesc).take 100
  let byCommit :=
    match e.gitInfo.commitHash with
    | some h => if h.isEmpty then index.byCommit else bucketAdd index.byCommit h s
    | none => index.byCommit
  let byBranch :=
    match e.gitInfo.branch with
    | some b => if b.isEmpty then index.byBranch else bucketAdd index.byBranch b s
    | none => index.byBranch
  { runs := runs, byCommit := byCommit, byBranch := byBranch }

/-- A revision-record file on disk: its modification time, name and parsed
contents. -/
structure StoredFile : Type where
  mtime : ℚ
  filename : String
  entry : LogEntry
deriving DecidableEq, Repr

/-- Model of `GitLogger._rebuild_index`: scan the remaining record files, collect
their summaries and sort them reverse-chronologically.  The bucket maps are
initialized empty and — as in the source — never repopulated, and no
100-entry truncation is applied. -/
def rebuildIndex (files : List StoredFile) : Index :=
  { runs := ((files.map fun f => summaryOf f.entry f.filename).mergeSort
      timestampDesc),
    byCommit := [],
    byBranch := [] }

/-- Model of `GitLogger.cleanup_old_results` (the cutoff time models
`time.time() - days*24*60*60`): delete every record file strictly older
than the cutoff, then rebuild the index from the remaining files. -/
def cleanupOldResults (cutoffTime : ℚ) (files : List StoredFile) :
    List StoredFile × Index :=
  let remaining := files.filter fun f => !decide (f.mtime < cutoffTime)
  (remaining, rebuildIndex remaining)

/-- The part of a revision record that `compare_results` reads after
loading it from disk. -/
structure RunRecord : Type where
  timestamp : Option String := none
  testResults : List StoredTest := []
deriving DecidableEq, Repr

/-- One entry of `index["runs"]` as scanned by `_get_results_for_ref`,
together with the loadable contents of its file (`none` models a missing
`filename` key or a vanished file). -/
structure IndexRun : Type where
  commitHash : Option String := none
  commitHashShort : Option String := none
  branch : Option String := none
  record : Option RunRecord := none

/-- The reference-match test of `_get_results_for_ref`: short hash equals
`ref[:8]`, or full hash or branch equals `ref`. -/
def refMatches (run : IndexRun) (ref : String) : Bool :=
  run.commitHashShort = some (ref.take 8) ||
  run.commitHash = some ref ||
  run.branch = some ref

/-- Model of `GitLogger._get_results_for_ref`: scan the runs most-recent-first and
return the first matching run whose record file can be loaded; a matching
run without a loadable file is skipped and the scan continues. -/
def getResultsForRef (runs : List IndexRun) (ref : String) :
    Option RunRecord :=
  match runs with
  | [] => none
  | r :: rest =>
      if refMatches r ref then
        match r.record with
        | some rec => some rec
        | none => getResultsForRef rest ref
      else getResultsForRef rest ref

/-- One entry of the `improvements`/`regressions` lists.  The source stores
formatted strings (`"<name>: PASS → FAIL"`, `"<name>: score improved by
<delta>"`); the constructors carry the same information with the numeric
delta kept exact instead of decimal-formatted. -/
inductive CompEntry : Type where
  | statusFlip (testName : String) (toPassed : Bool)
  | scoreDelta (testName : String) (delta : ℚ)
deriving DecidableEq, Repr

/-- The comparison report of `compare_results`. -/
structure Comparison : Type where
  base : String
  target : String
  baseTimestamp : Option String := none
  targetTimestamp : Option String := none
  improvements : List CompEntry := []
  regressions : List CompEntry := []
  newTests : List String := []
  removedTests : List String := []
deriving DecidableEq, Repr

/-- Lookup in the `{test_name: test}` dictionary built by `compare_results`
(a later duplicate overwrites an earlier one). -/
def lookupTest (tests : List StoredTest) (name : String) :
    Option StoredTest :=
  tests.reverse.find? fun t => decide (t.testName = name)

/-- The distinct test names of a serialized run (the keys of the
`{test_name: test}` dictionary). -/
def testNames (tests : List StoredTest) : List String :=
  (tests.map fun t => t.testName).dedup

/-- Python's builtin `abs` on a (rational-modelled) float. -/
def pyAbs (q : ℚ) : ℚ := if q < 0 then -q else q

/-- The `improvements`/`regressions` entries contributed by one common test
name: a status flip goes to the matching side, then a score delta of
absolute value above 0.1 goes to the matching side; a missing score on
either side contributes nothing. -/
def entriesForTest (baseTests targetTests : List StoredTest)
    (name : String) : List CompEntry × List CompEntry :=
  match lookupTest baseTests name, lookupTest targetTests name with
  | some b, some t =>
      let statusPart : List CompEntry × List CompEntry :=
        if b.passed ≠ t.passed then
          if t.passed then ([.statusFlip name true], [])
          else ([], [.statusFlip name false])
        else ([], [])
      let scorePart : List CompEntry × List CompEntry :=
        match b.score, t.score with
        | some bs, some ts =>
            let scoreDiff := ts - bs
            if 1/10 < pyAbs scoreDiff then
              if 0 < scoreDiff then ([.scoreDelta name scoreDiff], [])
              else ([], [.scoreDelta name scoreDiff])
            else ([], [])
        | _, _ => ([], [])
      (statusPart.1 ++ scorePart.1, statusPart.2 ++ scorePart.2)
  | _, _ => ([], [])

/-- Model of `GitLogger.compare_results`: resolve both references (a missing side is
a named not-found error), then report new/removed test names and the
per-test status and score changes over the common names. -/
def compareResults (runs : List IndexRun) (base target : String) :
    Except String Comparison :=
  match getResultsForRef runs base with
  | none => .error ("No test results found for base: " ++ base)
  | some baseResults =>
      match getResultsForRef runs target with
      | none => .error ("No test results found for target: " ++ target)
      | some targetResults =>
          let baseTests := baseResults.testResults
          let targetTests := targetResults.testResults
          let baseNames := testNames baseTests
          let targetNames := testNames targetTests
          let common := baseNames.filter fun n => decide (n ∈ targetNames)
          let perTest := common.map (entriesForTest baseTests targetTests)
          .ok {
            base := base,
            target := target,
            baseTimestamp := baseResults.timestamp,
            targetTimestamp := targetResults.timestamp,
            improvements := (perTest.map Prod.fst).flatten,
            regressions := (perTest.map Prod.snd).flatten,
            newTests := targetNames.filter fun n => !decide (n ∈ baseNames),
            removedTests := baseNames.filter fun n => !decide (n ∈ targetNames) }

/-! ### Supporting lemmas -/

/-- The failure condition `_determine_pass_status` applies to one entry:
truthy `error`, explicit `passed=False`, or a recorded score below the
entry's threshold (default 0.8). -/
def critEntryFails (r : CritEntry) : Bool :=
  strTruthy r.error || decide (r.passed = some false) ||
    (match r.score with
     | some s => decide (s < r.threshold.getD (4/5))
     | none => false)

theorem determinePassStatus_eq_all (evals : List (String × CritEntry)) :
    determinePassStatus evals = evals.all fun p => !critEntryFails p.2 := by
  induction evals with
  | nil => rfl
  | cons hd tl ih =>
    obtain ⟨name, r⟩ := hd
    simp only [determinePassStatus, List.all_cons, critEntryFails]
    by_cases h1 : strTruthy r.error
    · simp [h1]
    · by_cases h2 : r.passed = some false
      · simp [h1, h2]
      · cases hs : r.score with
        | none => simp [h1, h2, ih, critEntryFails, hs]
        | some s =>
          by_cases h3 : s < r.threshold.getD (4/5)
          · simp [h1, h2, hs, h3]
          · simp [h1, h2, hs, h3, ih, critEntryFails]

theorem critEntryFails_iff (r : CritEntry) :
    critEntryFails r = true ↔
      strTruthy r.error = true ∨ r.passed = some false ∨
        ∃ s, r.score = some s ∧ s < r.threshold.getD (4/5) := by
  cases hs : r.score <;> simp [critEntryFails, hs, or_assoc]

theorem determinePassStatus_false_iff (evals : List (String × CritEntry)) :
    determinePassStatus evals = false ↔
      ∃ p ∈ evals, critEntryFails p.2 = true := by
  rw [determinePassStatus_eq_all]
  constructor
  · intro h
    have h' := (List.all_eq_false).mp h
    obtain ⟨p, hp, hf⟩ := h'
    exact ⟨p, hp, by simpa using hf⟩
  · rintro ⟨p, hp, hf⟩
    refine (List.all_eq_false).mpr ⟨p, hp, ?_⟩
    simp [hf]

/-! ### Claims -/

/-- C1.  For an executed test whose function returns, the Runner fails the
test if and only if some criterion entry carries a (truthy) error, or
explicitly reports `passed=false`, or reports a score strictly below the
entry's recorded threshold (0.8 when none is recorded); an empty criteria
list passes, a single error entry forces failure regardless of the other
entries, and `execute_test` takes its `passed` flag from exactly this
determination. -/
theorem runner_pass_determination :
    (∀ evals : List (String × CritEntry),
        determinePassStatus evals = false ↔
          ∃ p ∈ evals,
            strTruthy p.2.error = true ∨ p.2.passed = some false ∨
              ∃ s, p.2.score = some s ∧ s < p.2.threshold.getD (4/5)) ∧
    determinePassStatus [] = true ∧
    (∀ (evals : List (String × CritEntry)) p, p ∈ evals →
        strTruthy p.2.error = true → determinePassStatus evals = false) ∧
    (∀ weightCfg registry duration tc out, tc.function = .ok out →
        (executeTest weightCfg registry duration tc).passed =
          determinePassStatus
            ((evaluateTestOutput registry out tc.criteria).map
              fun p => (p.1, p.2.toCritEntry))) := by
  refine ⟨?_, rfl, ?_, ?_⟩
  · intro evals
    rw [determinePassStatus_false_iff]
    constructor
    · rintro ⟨p, hp, hf⟩
      exact ⟨p, hp, (critEntryFails_iff p.2).mp hf⟩
    · rintro ⟨p, hp, hf⟩
      exact ⟨p, hp, (critEntryFails_iff p.2).mpr hf⟩
  · intro evals p hp herr
    rw [determinePassStatus_false_iff]
    exact ⟨p, hp, (critEntryFails_iff p.2).mpr (Or.inl herr)⟩
  · intro weightCfg registry duration tc out hfn
    simp [executeTest, hfn]

/-- Closed witness for C1: a singleton error entry makes the determination
fail, and the `execute_test` wiring holds at a concrete test case. -/
theorem runner_pass_determination_witness :
    determinePassStatus [("c", { error := some "boom" })] = false ∧
      (executeTest (fun _ => none) (fun _ => none) 0
          { name := "t", function := .ok (.scalar (.int 1)),
            criteria := ["c"] }).passed =
        determinePassStatus
          ((evaluateTestOutput (fun _ => none) (.scalar (.int 1))
              ["c"]).map fun p => (p.1, p.2.toCritEntry)) := by
  constructor
  · exact (runner_pass_determination.2.2.1
      [("c", { error := some "boom" })] ("c", { error := some "boom" })
      (by simp) (by decide))
  · exact runner_pass_determination.2.2.2 (fun _ => none) (fun _ => none) 0
      { name := "t", function := .ok (.scalar (.int 1)), criteria := ["c"] }
      (.scalar (.int 1)) rfl

/-- The entries `_calculate_overall_score` uses: a present `score` key and
no truthy `error`. -/
def qualifies (p : String × CritEntry) : Bool :=
  p.2.score.isSome && !strTruthy p.2.error

theorem overallScore_pairs_eq (weightCfg : String → Option ℚ)
    (evals : List (String × CritEntry)) :
    (evals.filterMap fun p =>
        match p.2.score with
        | some s =>
            if strTruthy p.2.error then none
            else some (s, (weightCfg p.1).getD 1)
        | none => none) =
      (evals.filter qualifies).map fun p =>
        (p.2.score.getD 0, (weightCfg p.1).getD 1) := by
  induction evals with
  | nil => rfl
  | cons hd tl ih =>
    simp only [List.filterMap_cons, List.filter_cons]
    cases hs : hd.2.score with
    | none => simpa [qualifies, hs] using ih
    | some s =>
      by_cases he : strTruthy hd.2.error
      · simpa [qualifies, hs, he] using ih
      · simpa [qualifies, hs, he] using ih

/-- C2.  The overall score is the weighted average `Σ(score·weight)/Σ(weight)`
over exactly the criterion entries that report a score and no error, with
each weight taken from the criterion's configuration (default 1.0); when no
entry qualifies the overall score is `none`, not zero; and the worked
example `{a: 0.9 at weight 2, b: 0.5 at weight 1}` gives `23/30 ≈ 0.7667`. -/
theorem runner_overall_score :
    (∀ (weightCfg : String → Option ℚ) (evals : List (String × CritEntry)),
        evals.filter qualifies ≠ [] →
        calculateOverallScore weightCfg evals =
          some ((((evals.filter qualifies).map fun p =>
              p.2.score.getD 0 * (weightCfg p.1).getD 1).sum) /
            (((evals.filter qualifies).map fun p =>
              (weightCfg p.1).getD 1).sum))) ∧
    (∀ (weightCfg : String → Option ℚ) (evals : List (String × CritEntry)),
        evals.filter qualifies = [] →
        calculateOverallScore weightCfg evals = none) ∧
    calculateOverallScore
        (fun c => if c = "a" then some 2 else if c = "b" then some 1 else none)
        [("a", { score := some (9/10) }), ("b", { score := some (1/2) })] =
      some (23/30) := by
  refine ⟨?_, ?_, ?_⟩
  · intro weightCfg evals hne
    simp only [calculateOverallScore, overallScore_pairs_eq, List.map_map]
    simp [List.isEmpty_iff, hne, Function.comp_def]
  · intro weightCfg evals hnone
    simp [calculateOverallScore, overallScore_pairs_eq, hnone]
  · simp only [calculateOverallScore, List.filterMap_cons, List.filterMap_nil,
      strTruthy]
    have hb : (if ("b" : String) = "a" then (some 2 : Option ℚ) else some 1) =
        some 1 := by simp
    norm_num [hb]

/-- Closed witness for C2: the weighted-average formula applied to a
concrete singleton entry, and the none-case at a concrete entry whose score
is absent. -/
theorem runner_overall_score_witness :
    calculateOverallScore (fun _ => none) [("a", { score := some (1/2) })] =
      some (((([(("a" : String), ({ score := some (1/2) } : CritEntry))].filter
          qualifies).map fun p =>
            p.2.score.getD 0 * ((fun _ : String => (none : Option ℚ)) p.1).getD 1).sum) /
        ((([(("a" : String), ({ score := some (1/2) } : CritEntry))].filter
          qualifies).map fun p =>
            ((fun _ : String => (none : Option ℚ)) p.1).getD 1).sum)) ∧
    calculateOverallScore (fun _ => none) [("b", { passed := some true })] =
      none := by
  exact ⟨runner_overall_score.1 (fun _ => none) _ (by simp [qualifies, strTruthy]),
    runner_overall_score.2.1 (fun _ => none) _ (by simp [qualifies, strTruthy])⟩

/-- C5.  A test function that raises is caught by `execute_test`: the
result is `passed=false` with the formatted exception message as `error`,
the duration still recorded, and no score, no captured output and no
evaluations; and a run over any batch always completes with one result per
test case. -/
theorem runner_execution_fault :
    (∀ (weightCfg : String → Option ℚ) (registry : Registry) (duration : ℚ)
        (tc : TestCase) (e : PyExc), tc.function = .error e →
        executeTest weightCfg registry duration tc =
          { testName := tc.name, passed := false, score := none,
            duration := duration, details := none,
            error := some (e.ty ++ ": " ++ e.msg), evaluations := [] }) ∧
    (∀ (weightCfg : String → Option ℚ) (registry : Registry)
        (durations : TestCase → ℚ) (testCases : List TestCase),
        (runTests weightCfg registry durations testCases).length =
          testCases.length) := by
  constructor
  · intro weightCfg registry duration tc e hfn
    simp [executeTest, hfn, PyExc.format]
  · intro weightCfg registry durations testCases
    simp [runTests]

/-- Closed witness for C5: a concrete raising test case yields the failed
result with its duration and message recorded. -/
theorem runner_execution_fault_witness :
    executeTest (fun _ => none) (fun _ => none) (3/2)
        { name := "t", function := .error ⟨"ValueError", "bad"⟩,
          criteria := ["c"] } =
      { testName := "t", passed := false, score := none, duration := 3/2,
        details := none, error := some ("ValueError" ++ ": " ++ "bad"),
        evaluations := [] } :=
  runner_execution_fault.1 (fun _ => none) (fun _ => none) (3/2)
    { name := "t", function := .error ⟨"ValueError", "bad"⟩,
      criteria := ["c"] } ⟨"ValueError", "bad"⟩ rfl

/-- C10.  An empty-list output is normalized to an empty `test_cases`
batch, and the StringSimilarityEvaluator then reports `passed=true` with
`score=0.0` — not 1.0 and not absent. -/
theorem string_similarity_empty_batch :
    (∀ cfg : EvalConfig,
        (stringSimilarityEvaluate cfg (.list [])).passed = true ∧
        (stringSimilarityEvaluate cfg (.list [])).score = some 0) ∧
    extractTestData (.list []) = { testCases := some [] } :=
  ⟨fun _ => ⟨rfl, rfl⟩, rfl⟩

/-- C3.  In multi-case mode over a non-empty `test_cases` batch the result
passes iff every individual case passed, its score is the sum of the
individual scores that are present (a missing score contributing 0) divided
by the number of cases, and the details retain every individual result;
and an output carrying a `test_cases` key is routed to exactly this mode. -/
theorem string_similarity_multi_case :
    (∀ (cfg : EvalConfig) (testCases : List CaseRec), testCases ≠ [] →
        ((evaluateMultipleCases cfg testCases).passed = true ↔
          ∀ r ∈ testCases.map (evaluateSingleCase cfg), r.passed = true) ∧
        (evaluateMultipleCases cfg testCases).score =
          some (((testCases.map (evaluateSingleCase cfg)).map
              (fun r => r.score.getD 0)).sum / (testCases.length : ℚ)) ∧
        (evaluateMultipleCases cfg testCases).details =
          .multiCase testCases.length
            ((testCases.map (evaluateSingleCase cfg)).countP
              fun r => r.passed)
            (testCases.map (evaluateSingleCase cfg))) ∧
    (∀ (cfg : EvalConfig) (d : OutRec) (cases : List CaseRec),
        d.testCases = some cases →
        stringSimilarityEvaluate cfg (.dict d) =
          evaluateMultipleCases cfg cases) := by
  constructor
  · intro cfg testCases hne
    refine ⟨?_, ?_, rfl⟩
    · simp only [evaluateMultipleCases, EvaluationResult.passed,
        decide_eq_true_eq]
      rw [show testCases.length =
          (testCases.map (evaluateSingleCase cfg)).length by simp]
      exact List.countP_eq_length
    · simp only [evaluateMultipleCases, EvaluationResult.score,
        List.isEmpty_iff, hne, if_false]
  · intro cfg d cases hc
    simp [stringSimilarityEvaluate, extractTestData, hc]

/-- Closed witness for C3: the score formula applied to a concrete
one-element batch. -/
theorem string_similarity_multi_case_witness :
    (evaluateMultipleCases {} [{ actual := some (.str "hi") }]).score =
      some ((([({ actual := some (.str "hi") } : CaseRec)].map
          (evaluateSingleCase {})).map (fun r => r.score.getD 0)).sum /
        (([({ actual := some (.str "hi") } : CaseRec)].length : ℚ))) :=
  (string_similarity_multi_case.1 {} [{ actual := some (.str "hi") }]
    (by simp)).2.1

/-- The `try/except` wrapper around each evaluator's `evaluate` body
(`StringSimilarityEvaluator.evaluate`, `RegexEvaluator.evaluate`): an
internal failure is converted into a failed `EvaluationResult` carrying the
prefixed error message instead of propagating. -/
def guardEvaluate (failMsg : String)
    (body : Except String EvaluationResult) : EvaluationResult :=
  match body with
  | .ok r => r
  | .error e => .mk false none none .empty (some (failMsg ++ e))

/-- C4.  Evaluating a criteria list never raises: every criterion in the
declared order gets exactly one entry; a criterion whose evaluator is not
registered gets the synthetic entry `Evaluator '<name>' not found` while the
criteria before and after it are still evaluated; a raising evaluator is
caught and recorded as an `Evaluation failed:` entry, again without
disturbing the other criteria; and an evaluator's own guard converts an
internal failure into a failed result with an error message. -/
theorem evaluation_fault_containment :
    (∀ (registry : Registry) (out : TestOutput) (criteria : List String),
        (evaluateTestOutput registry out criteria).map Prod.fst = criteria) ∧
    (∀ (registry : Registry) (out : TestOutput) (pre : List String)
        (c : String) (post : List String), registry c = none →
        evaluateTestOutput registry out (pre ++ c :: post) =
          evaluateTestOutput registry out pre ++
            (c, .errorEntry ("Evaluator '" ++ c ++ "' not found")) ::
              evaluateTestOutput registry out post) ∧
    (∀ (registry : Registry) (out : TestOutput) (pre : List String)
        (c : String) (post : List String) (ev : Evaluator) (msg : String),
        registry c = some ev → ev out = .error msg →
        evaluateTestOutput registry out (pre ++ c :: post) =
          evaluateTestOutput registry out pre ++
            (c, .errorEntry ("Evaluation failed: " ++ msg)) ::
              evaluateTestOutput registry out post) ∧
    (∀ failMsg e : String,
        guardEvaluate failMsg (.error e) =
          .mk false none none .empty (some (failMsg ++ e))) := by
  refine ⟨?_, ?_, ?_, fun _ _ => rfl⟩
  · intro registry out criteria
    simp [evaluateTestOutput, List.map_map, Function.comp_def]
  · intro registry out pre c post hnone
    simp [evaluateTestOutput, hnone]
  · intro registry out pre c post ev msg hev hmsg
    simp [evaluateTestOutput, hev, hmsg]

/-- Closed witness for C4: with a registry holding one healthy and one
raising evaluator, an unknown criterion in the middle is recorded as a
not-found entry and the surrounding criteria are still evaluated. -/
theorem evaluation_fault_containment_witness :
    evaluateTestOutput
        (fun c =>
          if c = "good" then
            some (fun _ => .ok (.mk true (some 1) none .empty none))
          else if c = "bad" then some (fun _ => .error "boom")
          else none)
        (.scalar (.int 0)) (["good"] ++ "missing" :: ["bad"]) =
      evaluateTestOutput
          (fun c =>
            if c = "good" then
              some (fun _ => .ok (.mk true (some 1) none .empty none))
            else if c = "bad" then some (fun _ => .error "boom")
            else none)
          (.scalar (.int 0)) ["good"] ++
        ("missing",
            .errorEntry ("Evaluator '" ++ "missing" ++ "' not found")) ::
          evaluateTestOutput
            (fun c =>
              if c = "good" then
                some (fun _ => .ok (.mk true (some 1) none .empty none))
              else if c = "bad" then some (fun _ => .error "boom")
              else none)
            (.scalar (.int 0)) ["bad"] :=
  evaluation_fault_containment.2.1 _ (.scalar (.int 0)) ["good"] "missing"
    ["bad"] (by simp)

theorem searchList_isSome_iff (p : RPattern) (l : List Char) :
    (searchList p l).isSome = true ↔
      ∃ i, (matchSeq p (l.drop i)).isSome = true := by
  induction l with
  | nil =>
    constructor
    · intro hs
      refine ⟨0, ?_⟩
      simp only [searchList] at hs
      cases h : matchSeq p [] with
      | some r => simp [List.drop_nil, h]
      | none => rw [h] at hs; simp at hs
    · rintro ⟨i, hi⟩
      simp only [List.drop_nil] at hi
      simp only [searchList]
      cases h : matchSeq p [] with
      | some r => simp
      | none => rw [h] at hi; simp at hi
  | cons c s' ih =>
    simp only [searchList]
    cases h : matchSeq p (c :: s') with
    | some rem =>
      simp only [Option.isSome_some, true_iff]
      exact ⟨0, by simp [h]⟩
    | none =>
      rw [ih]
      constructor
      · rintro ⟨j, hj⟩
        exact ⟨j + 1, by simpa using hj⟩
      · rintro ⟨i, hi⟩
        cases i with
        | zero =>
          rw [List.drop_zero, h] at hi
          simp at hi
        | succ j => exact ⟨j, by simpa using hi⟩

/-- C9.  The RegexEvaluator reports an error result when `actual` is
missing or no pattern is available; otherwise with the resolved pattern
(output key taking precedence over configuration) it passes iff the
pattern matches anywhere in the stringified `actual` — an unanchored
search over all start positions — scores 1.0/0.0 accordingly and records
the first match text in the details; on
`{actual: "order #12345 shipped", pattern: "#\d+"}` it passes with score
1.0 and match `"#12345"`. -/
theorem regex_evaluator_spec :
    (∀ (cfg : EvalConfig) (out : TestOutput),
        (extractTestData out).actual = none →
        regexEvaluate cfg out =
          .mk false none none .empty
            (some "No 'actual' value found in test output")) ∧
    (∀ (cfg : EvalConfig) (out : TestOutput) (a : PyVal),
        (extractTestData out).actual = some a →
        pyTruthyO (if pyTruthyO (extractTestData out).pat
          then (extractTestData out).pat else cfg.pat) = false →
        regexEvaluate cfg out =
          .mk false none none .empty (some "No regex pattern specified")) ∧
    (∀ (cfg : EvalConfig) (out : TestOutput) (a : PyVal) (ps : String)
        (p : RPattern),
        (extractTestData out).actual = some a →
        (if pyTruthyO (extractTestData out).pat then (extractTestData out).pat
          else cfg.pat) = some (.str ps) →
        ps.isEmpty = false →
        parsePattern ps = .ok p →
        regexEvaluate cfg out =
          .mk (reSearch p (pyStr a)).isSome
            (some (if (reSearch p (pyStr a)).isSome then 1 else 0)) none
            (.regex a (.str ps) (reSearch p (pyStr a))) none ∧
        ((reSearch p (pyStr a)).isSome = true ↔
          ∃ i, (matchSeq p ((pyStr a).toList.drop i)).isSome = true)) ∧
    regexEvaluate {}
        (.dict { actual := some (.str "order #12345 shipped"),
                 pat := some (.str "#\\d+") }) =
      .mk true (some 1) none
        (.regex (.str "order #12345 shipped") (.str "#\\d+")
          (some "#12345")) none := by
  refine ⟨?_, ?_, ?_, rfl⟩
  · intro cfg out hact
    simp [regexEvaluate, hact]
  · intro cfg out a hact hpat
    simp [regexEvaluate, hact, hpat]
  · intro cfg out a ps p hact hpat hps hparse
    have htr : pyTruthyO (some (.str ps)) = true := by
      simp [pyTruthyO, pyTruthy, hps]
    constructor
    · simp [regexEvaluate, hact, hpat, htr, hparse]
    · exact searchList_isSome_iff p (pyStr a).toList

/-- Closed witness for C9: the unanchored-search characterization applied
at the concrete end-to-end example. -/
theorem regex_evaluator_spec_witness :
    regexEvaluate {}
        (.dict { actual := some (.str "order #12345 shipped"),
                 pat := some (.str "#\\d+") }) =
      .mk (reSearch [.once (.lit '#'), .rep .digit]
            (pyStr (.str "order #12345 shipped"))).isSome
        (some (if (reSearch [.once (.lit '#'), .rep .digit]
            (pyStr (.str "order #12345 shipped"))).isSome then 1 else 0))
        none
        (.regex (.str "order #12345 shipped") (.str "#\\d+")
          (reSearch [.once (.lit '#'), .rep .digit]
            (pyStr (.str "order #12345 shipped")))) none :=
  (regex_evaluator_spec.2.2.1 {}
    (.dict { actual := some (.str "order #12345 shipped"),
             pat := some (.str "#\\d+") })
    (.str "order #12345 shipped") "#\\d+"
    [.once (.lit '#'), .rep .digit] rfl rfl (by decide) rfl).1

theorem pyAbs_eq_abs (q : ℚ) : pyAbs q = |q| := by
  unfold pyAbs
  rcases lt_or_le q 0 with h | h
  · rw [if_pos h, abs_of_neg h]
  · rw [if_neg (not_lt.mpr h), abs_of_nonneg h]

theorem mem_entriesForTest_fst {bt tt : List StoredTest} {n : String}
    {e : CompEntry} (he : e ∈ (entriesForTest bt tt n).1) :
    e = .statusFlip n true ∨
      ∃ b t bs ts, lookupTest bt n = some b ∧ lookupTest tt n = some t ∧
        b.score = some bs ∧ t.score = some ts ∧
        e = .scoreDelta n (ts - bs) ∧ 1/10 < |ts - bs| ∧ 0 < ts - bs := by
  unfold entriesForTest at he
  rcases hb : lookupTest bt n with _ | b <;> rw [hb] at he
  · simp at he
  · rcases ht : lookupTest tt n with _ | t <;> rw [ht] at he
    · simp at he
    · simp only [List.mem_append] at he
      rcases he with he | he
      · split_ifs at he with h1 h2
        · simp at he
          exact Or.inl he
        · simp at he
        · simp at he
      · rcases hbs : b.score with _ | bs <;> rw [hbs] at he
        · simp at he
        · rcases hts : t.score with _ | ts <;> rw [hts] at he
          · simp at he
          · simp only [] at he
            split_ifs at he with h1 h2
            · simp at he
              rw [pyAbs_eq_abs] at h1
              exact Or.inr ⟨b, t, bs, ts, rfl, rfl, hbs, hts, he, h1, h2⟩
            · simp at he
            · simp at he

theorem mem_entriesForTest_snd {bt tt : List StoredTest} {n : String}
    {e : CompEntry} (he : e ∈ (entriesForTest bt tt n).2) :
    e = .statusFlip n false ∨
      ∃ b t bs ts, lookupTest bt n = some b ∧ lookupTest tt n = some t ∧
        b.score = some bs ∧ t.score = some ts ∧
        e = .scoreDelta n (ts - bs) ∧ 1/10 < |ts - bs| ∧ ts - bs < 0 := by
  unfold entriesForTest at he
  rcases hb : lookupTest bt n with _ | b <;> rw [hb] at he
  · simp at he
  · rcases ht : lookupTest tt n with _ | t <;> rw [ht] at he
    · simp at he
    · simp only [List.mem_append] at he
      rcases he with he | he
      · split_ifs at he with h1 h2
        · simp at he
        · simp at he
          exact Or.inl he
        · simp at he
      · rcases hbs : b.score with _ | bs <;> rw [hbs] at he
        · simp at he
        · rcases hts : t.score with _ | ts <;> rw [hts] at he
          · simp at he
          · simp only [] at he
            split_ifs at he with h1 h2
            · simp at he
            · simp at he
              rw [pyAbs_eq_abs] at h1
              have hne : ts - bs ≠ 0 := by
                intro h0
                rw [h0] at h1
                norm_num at h1
              exact Or.inr ⟨b, t, bs, ts, rfl, rfl, hbs, hts, he, h1,
                lt_of_le_of_ne (not_lt.mp h2) hne⟩
            · simp at he

theorem statusFlip_mem_entriesForTest_snd {bt tt : List StoredTest}
    {n : String} {b t : StoredTest} (hb : lookupTest bt n = some b)
    (ht : lookupTest tt n = some t) (hbp : b.passed = true)
    (htp : t.passed = false) :
    CompEntry.statusFlip n false ∈ (entriesForTest bt tt n).2 := by
  unfold entriesForTest
  rw [hb, ht]
  simp [hbp, htp]

theorem statusFlip_mem_entriesForTest_fst {bt tt : List StoredTest}
    {n : String} {b t : StoredTest} (hb : lookupTest bt n = some b)
    (ht : lookupTest tt n = some t) (hbp : b.passed = false)
    (htp : t.passed = true) :
    CompEntry.statusFlip n true ∈ (entriesForTest bt tt n).1 := by
  unfold entriesForTest
  rw [hb, ht]
  simp [hbp, htp]

theorem scoreDelta_mem_entriesForTest_fst {bt tt : List StoredTest}
    {n : String} {b t : StoredTest} {bs ts : ℚ}
    (hb : lookupTest bt n = some b) (ht : lookupTest tt n = some t)
    (hbs : b.score = some bs) (hts : t.score = some ts)
    (h1 : 1/10 < |ts - bs|) (h2 : 0 < ts - bs) :
    CompEntry.scoreDelta n (ts - bs) ∈ (entriesForTest bt tt n).1 := by
  unfold entriesForTest
  rw [hb, ht]
  simp only [hbs, hts]
  have h1i : (10:ℚ)⁻¹ < pyAbs (ts - bs) := by
    rw [← one_div, pyAbs_eq_abs]; exact h1
  simp [List.mem_append, h1i, h2]

theorem scoreDelta_mem_entriesForTest_snd {bt tt : List StoredTest}
    {n : String} {b t : StoredTest} {bs ts : ℚ}
    (hb : lookupTest bt n = some b) (ht : lookupTest tt n = some t)
    (hbs : b.score = some bs) (hts : t.score = some ts)
    (h1 : 1/10 < |ts - bs|) (h2 : ts - bs < 0) :
    CompEntry.scoreDelta n (ts - bs) ∈ (entriesForTest bt tt n).2 := by
  unfold entriesForTest
  rw [hb, ht]
  simp only [hbs, hts]
  have h1i : (10:ℚ)⁻¹ < pyAbs (ts - bs) := by
    rw [← one_div, pyAbs_eq_abs]; exact h1
  simp [List.mem_append, h1i, not_lt.mpr (le_of_lt h2)]

theorem mem_flatten_map_fst {α : Type} (f : String → List α × List α)
    (l : List String) (e : α) :
    e ∈ ((l.map f).map Prod.fst).flatten ↔ ∃ n ∈ l, e ∈ (f n).1 := by
  simp only [List.mem_flatten, List.mem_map]
  constructor
  · rintro ⟨L, ⟨L', ⟨n, hn, rfl⟩, rfl⟩, he⟩
    exact ⟨n, hn, he⟩
  · rintro ⟨n, hn, he⟩
    exact ⟨(f n).1, ⟨f n, ⟨n, hn, rfl⟩, rfl⟩, he⟩

theorem mem_flatten_map_snd {α : Type} (f : String → List α × List α)
    (l : List String) (e : α) :
    e ∈ ((l.map f).map Prod.snd).flatten ↔ ∃ n ∈ l, e ∈ (f n).2 := by
  simp only [List.mem_flatten, List.mem_map]
  constructor
  · rintro ⟨L, ⟨L', ⟨n, hn, rfl⟩, rfl⟩, he⟩
    exact ⟨n, hn, he⟩
  · rintro ⟨n, hn, he⟩
    exact ⟨(f n).2, ⟨f n, ⟨n, hn, rfl⟩, rfl⟩, he⟩

theorem compareResults_eq_ok {runs : List IndexRun} {base target : String}
    {br tr : RunRecord} (hb : getResultsForRef runs base = some br)
    (ht : getResultsForRef runs target = some tr) :
    compareResults runs base target = .ok {
      base := base, target := target,
      baseTimestamp := br.timestamp, targetTimestamp := tr.timestamp,
      improvements := ((((testNames br.testResults).filter fun n =>
          decide (n ∈ testNames tr.testResults)).map
            (entriesForTest br.testResults tr.testResults)).map
              Prod.fst).flatten,
      regressions := ((((testNames br.testResults).filter fun n =>
          decide (n ∈ testNames tr.testResults)).map
            (entriesForTest br.testResults tr.testResults)).map
              Prod.snd).flatten,
      newTests := (testNames tr.testResults).filter fun n =>
        !decide (n ∈ testNames br.testResults),
      removedTests := (testNames br.testResults).filter fun n =>
        !decide (n ∈ testNames tr.testResults) } := by
  rw [compareResults, hb, ht]

/-- C6.  In a resolved comparison, a test name present in the target run
and absent from the base run appears exactly once in `new_tests`; a test
whose status flipped PASS→FAIL contributes its flip entry to `regressions`
and such an entry never occurs in `improvements` (and a FAIL→PASS flip
contributes to `improvements`); and when either reference resolves to no
recorded run the comparison fails with the named not-found error instead
of returning a comparison. -/
theorem compare_results_structure :
    (∀ (runs : List IndexRun) (base target : String) (br tr : RunRecord)
        (comp : Comparison) (name : String),
        getResultsForRef runs base = some br →
        getResultsForRef runs target = some tr →
        compareResults runs base target = .ok comp →
        name ∈ testNames tr.testResults →
        name ∉ testNames br.testResults →
        comp.newTests.count name = 1) ∧
    (∀ (runs : List IndexRun) (base target : String) (br tr : RunRecord)
        (comp : Comparison) (name : String) (b t : StoredTest),
        getResultsForRef runs base = some br →
        getResultsForRef runs target = some tr →
        compareResults runs base target = .ok comp →
        name ∈ testNames br.testResults →
        name ∈ testNames tr.testResults →
        lookupTest br.testResults name = some b →
        lookupTest tr.testResults name = some t →
        b.passed = true → t.passed = false →
        CompEntry.statusFlip name false ∈ comp.regressions ∧
          CompEntry.statusFlip name false ∉ comp.improvements) ∧
    (∀ (runs : List IndexRun) (base target : String) (br tr : RunRecord)
        (comp : Comparison) (name : String) (b t : StoredTest),
        getResultsForRef runs base = some br →
        getResultsForRef runs target = some tr →
        compareResults runs base target = .ok comp →
        name ∈ testNames br.testResults →
        name ∈ testNames tr.testResults →
        lookupTest br.testResults name = some b →
        lookupTest tr.testResults name = some t →
        b.passed = false → t.passed = true →
        CompEntry.statusFlip name true ∈ comp.improvements) ∧
    (∀ (runs : List IndexRun) (base target : String),
        getResultsForRef runs base = none →
        compareResults runs base target =
          .error ("No test results found for base: " ++ base)) ∧
    (∀ (runs : List IndexRun) (base target : String) (br : RunRecord),
        getResultsForRef runs base = some br →
        getResultsForRef runs target = none →
        compareResults runs base target =
          .error ("No test results found for target: " ++ target)) := by
  refine ⟨?_, ?_, ?_, ?_, ?_⟩
  · intro runs base target br tr comp name hb ht hcomp hmemT hnotB
    have hok := compareResults_eq_ok hb ht
    rw [hcomp] at hok
    injection hok with hok
    subst hok
    have hnodup : ((testNames tr.testResults).filter fun n =>
        !decide (n ∈ testNames br.testResults)).Nodup :=
      (List.nodup_dedup _).filter _
    exact List.count_eq_one_of_mem hnodup
      (by simp [List.mem_filter, hmemT, hnotB])
  · intro runs base target br tr comp name b t hb ht hcomp hmB hmT hlb hlt
      hbp htp
    have hok := compareResults_eq_ok hb ht
    rw [hcomp] at hok
    injection hok with hok
    subst hok
    constructor
    · exact (mem_flatten_map_snd _ _ _).mpr
        ⟨name, by simp [List.mem_filter, hmB, hmT],
          statusFlip_mem_entriesForTest_snd hlb hlt hbp htp⟩
    · intro hmem
      obtain ⟨n, hn, hentry⟩ := (mem_flatten_map_fst _ _ _).mp hmem
      rcases mem_entriesForTest_fst hentry with heq | ⟨_, _, _, _, _, _, _,
        _, heq, _, _⟩ <;> simp at heq
  · intro runs base target br tr comp name b t hb ht hcomp hmB hmT hlb hlt
      hbp htp
    have hok := compareResults_eq_ok hb ht
    rw [hcomp] at hok
    injection hok with hok
    subst hok
    exact (mem_flatten_map_fst _ _ _).mpr
      ⟨name, by simp [List.mem_filter, hmB, hmT],
        statusFlip_mem_entriesForTest_fst hlb hlt hbp htp⟩
  · intro runs base target hb
    rw [compareResults, hb]
  · intro runs base target br hb ht
    rw [compareResults, hb, ht]

/-- C7.  For a test present in both runs with numeric scores on both sides
and a score change of more than 0.1 in absolute value, the comparison
lists a score-delta entry under `improvements` when the score rose and
under `regressions` when it fell; when either side's score is absent, no
score-delta entry for that test appears on either side — the comparison is
skipped silently while the overall compare still succeeds. -/
theorem compare_results_score_delta :
    (∀ (runs : List IndexRun) (base target : String) (br tr : RunRecord)
        (comp : Comparison) (name : String) (b t : StoredTest) (bs ts : ℚ),
        getResultsForRef runs base = some br →
        getResultsForRef runs target = some tr →
        compareResults runs base target = .ok comp →
        name ∈ testNames br.testResults →
        name ∈ testNames tr.testResults →
        lookupTest br.testResults name = some b →
        lookupTest tr.testResults name = some t →
        b.score = some bs → t.score = some ts →
        1/10 < |ts - bs| →
        ((0 < ts - bs →
            CompEntry.scoreDelta name (ts - bs) ∈ comp.improvements) ∧
         (ts - bs < 0 →
            CompEntry.scoreDelta name (ts - bs) ∈ comp.regressions))) ∧
    (∀ (runs : List IndexRun) (base target : String) (br tr : RunRecord)
        (comp : Comparison) (name : String) (b t : StoredTest),
        getResultsForRef runs base = some br →
        getResultsForRef runs target = some tr →
        compareResults runs base target = .ok comp →
        lookupTest br.testResults name = some b →
        lookupTest tr.testResults name = some t →
        (b.score = none ∨ t.score = none) →
        ∀ d : ℚ, CompEntry.scoreDelta name d ∉ comp.improvements ∧
          CompEntry.scoreDelta name d ∉ comp.regressions) := by
  constructor
  · intro runs base target br tr comp name b t bs ts hb ht hcomp hmB hmT
      hlb hlt hbs hts habs
    have hok := compareResults_eq_ok hb ht
    rw [hcomp] at hok
    injection hok with hok
    subst hok
    constructor
    · intro hpos
      exact (mem_flatten_map_fst _ _ _).mpr
        ⟨name, by simp [List.mem_filter, hmB, hmT],
          scoreDelta_mem_entriesForTest_fst hlb hlt hbs hts habs hpos⟩
    · intro hneg
      exact (mem_flatten_map_snd _ _ _).mpr
        ⟨name, by simp [List.mem_filter, hmB, hmT],
          scoreDelta_mem_entriesForTest_snd hlb hlt hbs hts habs hneg⟩
  · intro runs base target br tr comp name b t hb ht hcomp hlb hlt hmiss d
    have hok := compareResults_eq_ok hb ht
    rw [hcomp] at hok
    injection hok with hok
    subst hok
    constructor
    · intro hmem
      obtain ⟨n, hn, hentry⟩ := (mem_flatten_map_fst _ _ _).mp hmem
      rcases mem_entriesForTest_fst hentry with heq | ⟨b', t', bs, ts,
        hlb', hlt', hbs', hts', heq, _, _⟩
      · simp at heq
      · obtain ⟨hname, _⟩ := CompEntry.scoreDelta.inj heq
        subst hname
        rw [hlb] at hlb'
        rw [hlt] at hlt'
        injection hlb' with hlb'
        injection hlt' with hlt'
        subst hlb'
        subst hlt'
        rcases hmiss with hm | hm
        · rw [hm] at hbs'
          exact Option.noConfusion hbs'
        · rw [hm] at hts'
          exact Option.noConfusion hts'
    · intro hmem
      obtain ⟨n, hn, hentry⟩ := (mem_flatten_map_snd _ _ _).mp hmem
      rcases mem_entriesForTest_snd hentry with heq | ⟨b', t', bs, ts,
        hlb', hlt', hbs', hts', heq, _, _⟩
      · simp at heq
      · obtain ⟨hname, _⟩ := CompEntry.scoreDelta.inj heq
        subst hname
        rw [hlb] at hlb'
        rw [hlt] at hlt'
        injection hlb' with hlb'
        injection hlt' with hlt'
        subst hlb'
        subst hlt'
        rcases hmiss with hm | hm
        · rw [hm] at hbs'
          exact Option.noConfusion hbs'
        · rw [hm] at hts'
          exact Option.noConfusion hts'

/-- A concrete base revision record used to witness the comparison
claims. -/
def demoBase : RunRecord :=
  { timestamp := some "T1",
    testResults := [⟨"flip", true, none⟩, ⟨"delta", true, some (1/2)⟩,
      ⟨"noscore", true, none⟩, ⟨"fixed", false, none⟩] }

/-- A concrete target revision record used to witness the comparison
claims. -/
def demoTarget : RunRecord :=
  { timestamp := some "T2",
    testResults := [⟨"flip", false, none⟩, ⟨"delta", true, some (9/10)⟩,
      ⟨"noscore", false, some 1⟩, ⟨"fixed", true, none⟩,
      ⟨"new1", true, none⟩] }

/-- A concrete two-run index used to witness the comparison claims. -/
def demoRuns : List IndexRun :=
  [{ branch := some "main", record := some demoBase },
   { branch := some "dev", record := some demoTarget }]

/-- The comparison report the store computes between `demoBase` (resolved
as `main`) and `demoTarget` (resolved as `dev`). -/
def demoComparison : Comparison :=
  { base := "main", target := "dev",
    baseTimestamp := some "T1", targetTimestamp := some "T2",
    improvements := [.scoreDelta "delta" (9/10 - 1/2),
      .statusFlip "fixed" true],
    regressions := [.statusFlip "flip" false, .statusFlip "noscore" false],
    newTests := ["new1"], removedTests := [] }

theorem demoCompare_eq :
    compareResults demoRuns "main" "dev" = .ok demoComparison := by
  have edelta : entriesForTest demoBase.testResults demoTarget.testResults
      "delta" = ([.scoreDelta "delta" ((9:ℚ)/10 - 1/2)], []) := by
    have hlb : lookupTest demoBase.testResults "delta" =
        some ⟨"delta", true, some (1/2)⟩ := rfl
    have hlt : lookupTest demoTarget.testResults "delta" =
        some ⟨"delta", true, some (9/10)⟩ := rfl
    unfold entriesForTest
    rw [hlb, hlt]
    norm_num [pyAbs]
  have hok := @compareResults_eq_ok demoRuns "main" "dev" demoBase
    demoTarget rfl rfl
  rw [hok]
  rw [show (testNames demoBase.testResults).filter
      (fun n => decide (n ∈ testNames demoTarget.testResults)) =
      ["flip", "delta", "noscore", "fixed"] from rfl]
  simp only [List.map_cons, List.map_nil, edelta,
    show entriesForTest demoBase.testResults demoTarget.testResults "flip" =
      ([], [.statusFlip "flip" false]) from rfl,
    show entriesForTest demoBase.testResults demoTarget.testResults
      "noscore" = ([], [.statusFlip "noscore" false]) from rfl,
    show entriesForTest demoBase.testResults demoTarget.testResults "fixed" =
      ([.statusFlip "fixed" true], []) from rfl]
  rfl

/-- Closed witness for C6: on the concrete two-run store, the new test is
counted once, the PASS→FAIL flip lands in regressions and not in
improvements, the FAIL→PASS flip lands in improvements, and an empty store
yields the named not-found error. -/
theorem compare_results_structure_witness :
    demoComparison.newTests.count "new1" = 1 ∧
    (CompEntry.statusFlip "flip" false ∈ demoComparison.regressions ∧
      CompEntry.statusFlip "flip" false ∉ demoComparison.improvements) ∧
    CompEntry.statusFlip "fixed" true ∈ demoComparison.improvements ∧
    compareResults [] "main" "dev" =
      .error ("No test results found for base: " ++ "main") := by
  refine ⟨?_, ?_, ?_, ?_⟩
  · exact compare_results_structure.1 demoRuns "main" "dev" demoBase
      demoTarget demoComparison "new1" rfl rfl demoCompare_eq
      (by decide) (by decide)
  · exact compare_results_structure.2.1 demoRuns "main" "dev" demoBase
      demoTarget demoComparison "flip" ⟨"flip", true, none⟩
      ⟨"flip", false, none⟩ rfl rfl demoCompare_eq (by decide) (by decide)
      rfl rfl rfl rfl
  · exact compare_results_structure.2.2.1 demoRuns "main" "dev" demoBase
      demoTarget demoComparison "fixed" ⟨"fixed", false, none⟩
      ⟨"fixed", true, none⟩ rfl rfl demoCompare_eq (by decide) (by decide)
      rfl rfl rfl rfl
  · exact compare_results_structure.2.2.2.1 [] "main" "dev" rfl

/-- Closed witness for C7: on the concrete store, the 0.4 score rise of
`delta` lands in improvements, while no score-delta entry exists for
`noscore`, whose base-side score is absent. -/
theorem compare_results_score_delta_witness :
    CompEntry.scoreDelta "delta" ((9:ℚ)/10 - 1/2) ∈
      demoComparison.improvements ∧
    (CompEntry.scoreDelta "noscore" 1 ∉ demoComparison.improvements ∧
      CompEntry.scoreDelta "noscore" 1 ∉ demoComparison.regressions) := by
  constructor
  · exact (compare_results_score_delta.1 demoRuns "main" "dev" demoBase
      demoTarget demoComparison "delta" ⟨"delta", true, some (1/2)⟩
      ⟨"delta", true, some (9/10)⟩ (1/2) (9/10) rfl rfl demoCompare_eq
      (by decide) (by decide) rfl rfl rfl rfl (by norm_num [lt_abs])).1
      (by norm_num)
  · exact compare_results_score_delta.2 demoRuns "main" "dev" demoBase
      demoTarget demoComparison "noscore" ⟨"noscore", true, none⟩
      ⟨"noscore", false, some 1⟩ rfl rfl demoCompare_eq rfl rfl
      (Or.inl rfl) 1

/-- A revision record carrying a commit hash and a branch. -/
def demoCommitEntry : LogEntry :=
  { timestamp := "t",
    gitInfo :=
      { commitHash := some "abc", commitHashShort := some "abc",
        branch := some "main" } }

/-- A store of 101 surviving record files, the first of which carries a
commit hash and branch, used to exhibit the rebuild behaviour. -/
def demoFiles : List StoredFile :=
  { mtime := 10, filename := "a.json", entry := demoCommitEntry } ::
    (List.range 100).map fun _ =>
      { mtime := 10, filename := "b.json", entry := { timestamp := "t" } }

/-- Counterexample for C8: after a cleanup that deletes nothing, 101
records remain, yet the rebuilt Index has an empty by-commit bucket and an
empty by-branch bucket (although a remaining record carries commit hash
`abc` and branch `main`), and its runs list holds all 101 entries — the
100-entry cap of the write path is not applied on rebuild. -/
theorem index_rebuild_counterexample :
    (cleanupOldResults 0 demoFiles).1.length = 101 ∧
    (cleanupOldResults 0 demoFiles).2.byCommit = [] ∧
    (cleanupOldResults 0 demoFiles).2.byBranch = [] ∧
    (cleanupOldResults 0 demoFiles).2.runs.length = 101 := by
  have hrem : (cleanupOldResults 0 demoFiles).1 = demoFiles := by
    simp only [cleanupOldResults]
    apply List.filter_eq_self.mpr
    intro f hf
    have hm : f.mtime = 10 := by
      simp only [demoFiles, List.mem_cons, List.mem_map] at hf
      rcases hf with rfl | ⟨i, _, rfl⟩ <;> rfl
    rw [hm]
    norm_num
  have hlen : demoFiles.length = 101 := by simp [demoFiles]
  refine ⟨by rw [hrem, hlen], rfl, rfl, ?_⟩
  show (rebuildIndex (cleanupOldResults 0 demoFiles).1).runs.length = 101
  rw [hrem]
  simp [rebuildIndex, List.length_mergeSort, hlen]

/-- C8 as amended.  After cleanup deletes every record file whose
modification time is below the cutoff, the Index is rebuilt purely from
the remaining records: its runs list is exactly the remaining records'
summaries sorted reverse-chronologically by timestamp, with no 100-entry
cap applied, and the by-commit and by-branch buckets are reset to empty
rather than repopulated from the remaining records. -/
theorem cleanup_rebuild_amended :
    ∀ (cutoffTime : ℚ) (files : List StoredFile),
      (cleanupOldResults cutoffTime files).1 =
        files.filter (fun f => !decide (f.mtime < cutoffTime)) ∧
      ((cleanupOldResults cutoffTime files).2.runs).Perm
        (((cleanupOldResults cutoffTime files).1).map
          fun f => summaryOf f.entry f.filename) ∧
      List.Sorted (fun a b : EntrySummary => b.timestamp ≤ a.timestamp)
        ((cleanupOldResults cutoffTime files).2.runs) ∧
      (cleanupOldResults cutoffTime files).2.byCommit = [] ∧
      (cleanupOldResults cutoffTime files).2.byBranch = [] := by
  intro cutoffTime files
  refine ⟨rfl, List.mergeSort_perm _ _, ?_, rfl, rfl⟩
  have hpw := @List.sorted_mergeSort EntrySummary timestampDesc
    (fun a b c hab hbc => by
      simp only [timestampDesc, decide_eq_true_eq] at *
      exact le_trans hbc hab)
    (fun a b => by
      simp only [timestampDesc, Bool.or_eq_true, decide_eq_true_eq]
      exact le_total b.timestamp a.timestamp)
    (((cleanupOldResults cutoffTime files).1).map
      fun f => summaryOf f.entry f.filename)
  refine List.Pairwise.imp ?_ hpw
  intro a b hab
  simpa [timestampDesc] using hab

end AgentTest
